import Mathlib

/-!
# Verification of the TreasuryDAO governance contracts

Shallow embedding of the two Solidity contracts of this repository:

* `contracts/TreasuryDAO.sol`       — "Confidential-spend" variant (namespace `TreasuryDAO`)
* `contracts/SimpleTreasuryDAO.sol` — "Simple" variant (namespace `SimpleTreasuryDAO`)

Modelling choices, uniform across both variants:

* Addresses are `Nat` (the zero address is `0`); `block.timestamp` is a `Nat`
  argument `now` passed to each call.  Chain timestamps, vote counters and the
  quorum are far below `2^256`, so `uint256` quantities that only ever grow by
  bounded increments are modelled as unbounded `Nat`; the one `uint256` sum of
  unbounded user-supplied values (`deposits[msg.sender] += msg.value`) models
  Solidity 0.8 checked arithmetic explicitly and fails on overflow.
* Encrypted `euint64` values are interpreted by their plaintexts, i.e. by
  naturals `< 2^64`; the homomorphic operations `FHE.add` / `FHE.sub` wrap
  modulo `2^64` and never revert, `FHE.select` / `FHE.eq` / `FHE.le` act on the
  plaintexts.  `FHE.fromExternal` reduces its input modulo `2^64`.  The FHE
  access-control calls (`FHE.allowThis` / `FHE.allow`) only affect who may
  decrypt off-chain; they change no on-chain state that any claim mentions, so
  they are not modelled.
* Each external function becomes a Lean function `State → … → Except Err State`
  returning `.error e` where Solidity reverts: an EVM revert discards every
  state write, so an erroring call leaves the state unchanged by construction.
  An out-of-bounds array access `proposals[id]` is a Solidity `Panic(0x32)`,
  not a named custom error; it is modelled by the dedicated error value
  `Err.panicOutOfBounds` (and the checked-arithmetic overflow panic by
  `Err.panicOverflow` in the Simple variant).
-/

namespace TreasuryDAO

/-- Identities (`address`); the zero address is `0`. -/
abbrev Address := Nat

/-- `2^64`, the modulus of plaintext `euint64` arithmetic. -/
def M64 : Nat := 2 ^ 64

/-- Plaintext of `FHE.add` on `euint64`: wrapping addition modulo `2^64`. -/
def fheAdd (a b : Nat) : Nat := (a + b) % M64

/-- Plaintext of `FHE.sub` on `euint64`: wrapping subtraction modulo `2^64`. -/
def fheSub (a b : Nat) : Nat := (a + M64 - b) % M64

/-- Plaintext of `FHE.select`. -/
def fheSelect (c : Bool) (a b : Nat) : Nat := if c then a else b

/-- Plaintext of `FHE.fromExternal`: the imported value is an `euint64`. -/
def fromExternal (a : Nat) : Nat := a % M64

/-- `struct Proposal` of `TreasuryDAO.sol`. -/
structure Proposal where
  recipient : Address
  encAmount : Nat
  yesVotes : Nat
  deadline : Nat
  executed : Bool
  executedEnc : Nat
deriving DecidableEq

/-- Contract storage of `TreasuryDAO`. -/
structure State where
  owner : Address
  quorum : Nat
  treasury : Nat
  proposals : List Proposal
  voted : Nat → Address → Bool
  isMember : Address → Bool

/-- The contract's custom errors, plus the two EVM panics that its code can
raise (array out of bounds; checked arithmetic is not reachable here). -/
inductive Err where
  | NotOwner
  | NotMember
  | PastDeadline
  | AlreadyVoted
  | AlreadyExecuted
  | QuorumNotReached
  | VotingOngoing
  | InvalidVotingPeriod
  | InvalidRecipient
  | panicOutOfBounds
deriving DecidableEq

def MIN_VOTING_PERIOD : Nat := 3600
def MAX_VOTING_PERIOD : Nat := 2592000

/-- `addMember` (owner only). -/
def addMember (s : State) (sender m : Address) : Except Err State :=
  if sender ≠ s.owner then .error .NotOwner
  else .ok { s with isMember := fun a => if a = m then true else s.isMember a }

/-- `removeMember` (owner only). -/
def removeMember (s : State) (sender m : Address) : Except Err State :=
  if sender ≠ s.owner then .error .NotOwner
  else .ok { s with isMember := fun a => if a = m then false else s.isMember a }

/-- `depositEncrypted` (owner only): homomorphically add to the treasury. -/
def depositEncrypted (s : State) (sender : Address) (amt : Nat) : Except Err State :=
  if sender ≠ s.owner then .error .NotOwner
  else .ok { s with treasury := fheAdd s.treasury (fromExternal amt) }

/-- `createProposal` (member only). -/
def createProposal (s : State) (sender recipient : Address) (amt votingPeriodSec now : Nat) :
    Except Err State :=
  if !s.isMember sender then .error .NotMember
  else if recipient = 0 then .error .InvalidRecipient
  else if votingPeriodSec < MIN_VOTING_PERIOD ∨ votingPeriodSec > MAX_VOTING_PERIOD then
    .error .InvalidVotingPeriod
  else .ok { s with proposals := s.proposals ++
    [{ recipient := recipient
       encAmount := fromExternal amt
       yesVotes := 0
       deadline := now + votingPeriodSec
       executed := false
       executedEnc := 0 }] }

/-- `updateQuorum` (owner only). -/
def updateQuorum (s : State) (sender : Address) (newQuorum : Nat) : Except Err State :=
  if sender ≠ s.owner then .error .NotOwner
  else .ok { s with quorum := newQuorum }

/-- `voteYes` (member only): `proposals[id]` panics when out of range. -/
def voteYes (s : State) (sender : Address) (id now : Nat) : Except Err State :=
  if !s.isMember sender then .error .NotMember
  else match s.proposals[id]? with
    | none => .error .panicOutOfBounds
    | some p =>
      if now > p.deadline then .error .PastDeadline
      else if s.voted id sender then .error .AlreadyVoted
      else .ok { s with
        voted := fun j a => if j = id ∧ a = sender then true else s.voted j a
        proposals := s.proposals.set id { p with yesVotes := p.yesVotes + 1 } }

/-- `execute` (member only): quorum-gated, fail-closed clamp of the spend. -/
def execute (s : State) (sender : Address) (id now : Nat) : Except Err State :=
  if !s.isMember sender then .error .NotMember
  else match s.proposals[id]? with
    | none => .error .panicOutOfBounds
    | some p =>
      if p.executed then .error .AlreadyExecuted
      else if p.yesVotes < s.quorum then
        if now < p.deadline then .error .VotingOngoing
        else .error .QuorumNotReached
      else
        let toSpend := fheSelect (decide (p.encAmount ≤ s.treasury)) p.encAmount 0
        .ok { s with
          treasury := fheSub s.treasury toSpend
          proposals := s.proposals.set id { p with executedEnc := toSpend, executed := true } }

/-- `cancelProposal` (owner only). -/
def cancelProposal (s : State) (sender : Address) (id : Nat) : Except Err State :=
  if sender ≠ s.owner then .error .NotOwner
  else match s.proposals[id]? with
    | none => .error .panicOutOfBounds
    | some p =>
      if p.executed then .error .AlreadyExecuted
      else .ok { s with
        proposals := s.proposals.set id { p with executed := true, executedEnc := 0 } }

/-- `getExecutedAmount` (view): `proposals[id]` panics when out of range. -/
def getExecutedAmount (s : State) (id : Nat) : Except Err Nat :=
  match s.proposals[id]? with
  | none => .error .panicOutOfBounds
  | some p => .ok p.executedEnc

/-- `getRequestedAmount` (view): `proposals[id]` panics when out of range. -/
def getRequestedAmount (s : State) (id : Nat) : Except Err Nat :=
  match s.proposals[id]? with
  | none => .error .panicOutOfBounds
  | some p => .ok p.encAmount

/-- One state-mutating external call, with its sender and block timestamp. -/
inductive Call where
  | addMember (sender m : Address)
  | removeMember (sender m : Address)
  | depositEncrypted (sender : Address) (amt : Nat)
  | createProposal (sender recipient : Address) (amt votingPeriodSec now : Nat)
  | updateQuorum (sender : Address) (q : Nat)
  | voteYes (sender : Address) (id now : Nat)
  | execute (sender : Address) (id now : Nat)
  | cancelProposal (sender : Address) (id : Nat)

/-- Dispatch one external call. -/
def step (s : State) : Call → Except Err State
  | .addMember sender m => addMember s sender m
  | .removeMember sender m => removeMember s sender m
  | .depositEncrypted sender amt => depositEncrypted s sender amt
  | .createProposal sender recipient amt period now =>
      createProposal s sender recipient amt period now
  | .updateQuorum sender q => updateQuorum s sender q
  | .voteYes sender id now => voteYes s sender id now
  | .execute sender id now => execute s sender id now
  | .cancelProposal sender id => cancelProposal s sender id

/-- The proposal id, if any, whose storage slot a call indexes with
`proposals[id]`. -/
def Call.pid : Call → Option Nat
  | .voteYes _ id _ => some id
  | .execute _ id _ => some id
  | .cancelProposal _ id => some id
  | _ => none

end TreasuryDAO

namespace SimpleTreasuryDAO

abbrev Address := TreasuryDAO.Address

/-- `2^64`, the modulus of plaintext `euint64` arithmetic. -/
def M64 : Nat := TreasuryDAO.M64

/-- `2^256`, the modulus of `uint256`; Solidity 0.8 checked arithmetic panics
instead of wrapping past it. -/
def M256 : Nat := 2 ^ 256

/-- `struct Proposal` of `SimpleTreasuryDAO.sol`. -/
structure Proposal where
  id : Nat
  title : String
  description : String
  proposer : Address
  amount : Nat
  recipient : Address
  deadline : Nat
  encryptedYesVotes : Nat
  encryptedNoVotes : Nat
  finalized : Bool
deriving DecidableEq

/-- Contract storage of `SimpleTreasuryDAO`. -/
structure State where
  owner : Address
  minDepositToVote : Nat
  proposals : List Proposal
  deposits : Address → Nat
  hasVoted : Nat → Address → Bool

/-- The contract's custom errors, the string revert of `updateMinDeposit`'s
`require`, and the checked-arithmetic overflow panic reachable in `deposit`. -/
inductive Err where
  | InsufficientDeposit
  | AlreadyVoted
  | ProposalNotFound
  | VotingEnded
  | NotProposer
  | InvalidAmount
  | InvalidRecipient
  | InvalidDeadline
  | NotFinalized
  | AlreadyFinalized
  | RequireNotOwner
  | panicOverflow
deriving DecidableEq

/-- `deposit` (payable): credits `msg.value` to the caller. -/
def deposit (s : State) (sender : Address) (value : Nat) : Except Err State :=
  if value = 0 then .error .InvalidAmount
  else if s.deposits sender + value ≥ M256 then .error .panicOverflow
  else .ok { s with deposits := fun a => if a = sender then s.deposits a + value else s.deposits a }

/-- `withdraw`: debits the caller's recorded balance (the external `transfer`
to the caller moves no contract storage that the model tracks). -/
def withdraw (s : State) (sender : Address) (amount : Nat) : Except Err State :=
  if s.deposits sender < amount then .error .InvalidAmount
  else .ok { s with deposits := fun a => if a = sender then s.deposits a - amount else s.deposits a }

/-- `createProposal`. -/
def createProposal (s : State) (sender : Address) (title description : String)
    (amount : Nat) (recipient : Address) (votingPeriodDays now : Nat) : Except Err State :=
  if s.deposits sender < s.minDepositToVote then .error .InsufficientDeposit
  else if amount = 0 then .error .InvalidAmount
  else if recipient = 0 then .error .InvalidRecipient
  else if votingPeriodDays = 0 ∨ votingPeriodDays > 30 then .error .InvalidDeadline
  else .ok { s with proposals := s.proposals ++
    [{ id := s.proposals.length
       title := title
       description := description
       proposer := sender
       amount := amount
       recipient := recipient
       deadline := now + votingPeriodDays * 86400
       encryptedYesVotes := 0
       encryptedNoVotes := 0
       finalized := false }] }

/-- `vote`: homomorphic dual increment on the plaintext of the ballot. -/
def vote (s : State) (sender : Address) (proposalId ballot now : Nat) : Except Err State :=
  if proposalId ≥ s.proposals.length then .error .ProposalNotFound
  else if s.deposits sender < s.minDepositToVote then .error .InsufficientDeposit
  else if s.hasVoted proposalId sender then .error .AlreadyVoted
  else match s.proposals[proposalId]? with
    | none => .error .ProposalNotFound
    | some p =>
      if now > p.deadline then .error .VotingEnded
      else
        let voteValue := TreasuryDAO.fromExternal ballot
        let yesIncrement := TreasuryDAO.fheSelect (decide (voteValue = 1)) 1 0
        let noIncrement := TreasuryDAO.fheSelect (decide (voteValue = 0)) 1 0
        .ok { s with
          proposals := s.proposals.set proposalId { p with
            encryptedYesVotes := TreasuryDAO.fheAdd p.encryptedYesVotes yesIncrement
            encryptedNoVotes := TreasuryDAO.fheAdd p.encryptedNoVotes noIncrement }
          hasVoted := fun j a => if j = proposalId ∧ a = sender then true else s.hasVoted j a }

/-- `finalizeProposal` (owner or proposer, after the deadline). -/
def finalizeProposal (s : State) (sender : Address) (proposalId now : Nat) : Except Err State :=
  if proposalId ≥ s.proposals.length then .error .ProposalNotFound
  else match s.proposals[proposalId]? with
    | none => .error .ProposalNotFound
    | some p =>
      if p.finalized then .error .AlreadyFinalized
      else if sender ≠ s.owner ∧ sender ≠ p.proposer then .error .NotProposer
      else if now ≤ p.deadline then .error .VotingEnded
      else .ok { s with proposals := s.proposals.set proposalId { p with finalized := true } }

/-- `getYesVotes` (view). -/
def getYesVotes (s : State) (proposalId : Nat) : Except Err Nat :=
  if proposalId ≥ s.proposals.length then .error .ProposalNotFound
  else match s.proposals[proposalId]? with
    | none => .error .ProposalNotFound
    | some p => if !p.finalized then .error .NotFinalized else .ok p.encryptedYesVotes

/-- `getNoVotes` (view). -/
def getNoVotes (s : State) (proposalId : Nat) : Except Err Nat :=
  if proposalId ≥ s.proposals.length then .error .ProposalNotFound
  else match s.proposals[proposalId]? with
    | none => .error .ProposalNotFound
    | some p => if !p.finalized then .error .NotFinalized else .ok p.encryptedNoVotes

/-- `updateMinDeposit` (owner only, via `require`). -/
def updateMinDeposit (s : State) (sender : Address) (newMinDeposit : Nat) : Except Err State :=
  if sender ≠ s.owner then .error .RequireNotOwner
  else .ok { s with minDepositToVote := newMinDeposit }

/-- One state-mutating external call, with its sender and block timestamp. -/
inductive Call where
  | deposit (sender : Address) (value : Nat)
  | withdraw (sender : Address) (amount : Nat)
  | createProposal (sender : Address) (title description : String)
      (amount : Nat) (recipient : Address) (votingPeriodDays now : Nat)
  | vote (sender : Address) (proposalId ballot now : Nat)
  | finalizeProposal (sender : Address) (proposalId now : Nat)
  | updateMinDeposit (sender : Address) (newMinDeposit : Nat)

/-- Dispatch one external call. -/
def step (s : State) : Call → Except Err State
  | .deposit sender value => deposit s sender value
  | .withdraw sender amount => withdraw s sender amount
  | .createProposal sender title description amount recipient days now =>
      createProposal s sender title description amount recipient days now
  | .vote sender id ballot now => vote s sender id ballot now
  | .finalizeProposal sender id now => finalizeProposal s sender id now
  | .updateMinDeposit sender v => updateMinDeposit s sender v

/-- A reverted call leaves the state unchanged; a successful one commits. -/
def runCall (s : State) (c : Call) : State :=
  match step s c with
  | .ok s' => s'
  | .error _ => s

/-- Run a finite sequence of external calls. -/
def run (s : State) : List Call → State
  | [] => s
  | c :: cs => run (runCall s c) cs

/-- The value a call deposits for address `a` (0 for non-deposit calls). -/
def depOf (a : Address) : Call → Nat
  | .deposit b v => if b = a then v else 0
  | _ => 0

/-- The amount a call withdraws for address `a` (0 for non-withdraw calls). -/
def wdOf (a : Address) : Call → Nat
  | .withdraw b v => if b = a then v else 0
  | _ => 0

/-- Sum of the values of the successful `deposit` calls of address `a`
along a trace. -/
def depSum (a : Address) (s : State) : List Call → Nat
  | [] => 0
  | c :: cs => (if (step s c).isOk then depOf a c else 0) + depSum a (runCall s c) cs

/-- Sum of the amounts of the successful `withdraw` calls of address `a`
along a trace. -/
def wdSum (a : Address) (s : State) : List Call → Nat
  | [] => 0
  | c :: cs => (if (step s c).isOk then wdOf a c else 0) + wdSum a (runCall s c) cs

end SimpleTreasuryDAO

/-! ## Concrete states used for witnesses and counterexamples -/

/-- A one-proposal Confidential-spend state: owner `0`, members `1` and `2`,
treasury `100`, one proposal requesting `40` for recipient `7`, with the given
quorum, yes-vote count, deadline and executed flag. -/
def tdBase (q yes dl : Nat) (ex : Bool) : TreasuryDAO.State where
  owner := 0
  quorum := q
  treasury := 100
  proposals := [{ recipient := 7, encAmount := 40, yesVotes := yes, deadline := dl,
                  executed := ex, executedEnc := 0 }]
  voted := fun _ _ => false
  isMember := fun a => a == 1 || a == 2

/-- A Confidential-spend state with members but no proposals. -/
def tdNoProposals : TreasuryDAO.State where
  owner := 0
  quorum := 1
  treasury := 0
  proposals := []
  voted := fun _ _ => false
  isMember := fun a => a == 1

/-- The state after member `1` executes proposal `0` of `tdBase 1 1 100 false`
at time `10` (quorum `1` already met, before the deadline `100`). -/
def tdExecuted : TreasuryDAO.State :=
  match TreasuryDAO.execute (tdBase 1 1 100 false) 1 0 10 with
  | .ok s => s
  | .error _ => tdBase 1 1 100 false

/-- The state after member `1` votes yes on proposal `0` of
`tdBase 1 0 100 false` at time `10`. -/
def tdVoted : TreasuryDAO.State :=
  match TreasuryDAO.voteYes (tdBase 1 0 100 false) 1 0 10 with
  | .ok s => s
  | .error _ => tdBase 1 0 100 false

/-- The state after the owner lowers the quorum of `tdBase 2 1 100 false`
from `2` to `1`. -/
def tdQuorumLowered : TreasuryDAO.State :=
  match TreasuryDAO.updateQuorum (tdBase 2 1 100 false) 0 1 with
  | .ok s => s
  | .error _ => tdBase 2 1 100 false

/-- A one-proposal Simple-variant state: owner `0`, identity `1` has deposited
`50`, one proposal by proposer `1` with the given minimum deposit, deadline and
finalized flag; nobody has voted yet. -/
def stBase (minDep dl : Nat) (fin : Bool) : SimpleTreasuryDAO.State where
  owner := 0
  minDepositToVote := minDep
  proposals := [{ id := 0, title := "grant", description := "fund the work", proposer := 1,
                  amount := 5, recipient := 7, deadline := dl, encryptedYesVotes := 3,
                  encryptedNoVotes := 4, finalized := fin }]
  deposits := fun a => if a = 1 then 50 else 0
  hasVoted := fun _ _ => false

/-- The state after the owner lowers the minimum deposit of
`stBase 100 100 false` from `100` to `10`. -/
def stMinLowered : SimpleTreasuryDAO.State :=
  match SimpleTreasuryDAO.updateMinDeposit (stBase 100 100 false) 0 10 with
  | .ok s => s
  | .error _ => stBase 100 100 false

/-- The state after the owner finalizes proposal `0` of `stBase 0 100 false`
at time `200` (after the deadline `100`). -/
def stFinalized : SimpleTreasuryDAO.State :=
  match SimpleTreasuryDAO.finalizeProposal (stBase 0 100 false) 0 0 200 with
  | .ok s => s
  | .error _ => stBase 0 100 false

/-- The state after identity `1` votes ballot `1` on proposal `0` of
`stBase 0 100 false` at time `50`. -/
def stVoted : SimpleTreasuryDAO.State :=
  match SimpleTreasuryDAO.vote (stBase 0 100 false) 1 0 1 50 with
  | .ok s => s
  | .error _ => stBase 0 100 false

/-! ## Helper lemmas -/

theorem TreasuryDAO.fheSub_of_le {X Y : Nat} (hX : X < M64) (hY : Y ≤ X) :
    TreasuryDAO.fheSub X Y = X - Y := by
  unfold TreasuryDAO.fheSub
  have h1 : X + M64 - Y = M64 + (X - Y) := by omega
  rw [h1, Nat.add_mod_left, Nat.mod_eq_of_lt (by omega)]

/-- C1: in the Confidential-spend variant, once the quorum check passes,
`execute` always succeeds (it can never fail for insufficient balance): it
computes `toSpend = select(encAmount ≤ treasury, encAmount, 0)`, subtracts
`toSpend` from the treasury, stores it as `executedEnc` and sets `executed`;
in plaintext terms, if the requested `Y` is at most the treasury `X` then
`executedEnc = Y` and the treasury becomes `X - Y`, and if `Y > X` then
`executedEnc = 0` and the treasury is unchanged. -/
theorem TreasuryDAO.execute_clamps (s : TreasuryDAO.State) (sender : TreasuryDAO.Address)
    (id now : Nat) (p : TreasuryDAO.Proposal)
    (hm : s.isMember sender = true) (hp : s.proposals[id]? = some p)
    (hx : p.executed = false) (hq : s.quorum ≤ p.yesVotes)
    (hY : p.encAmount < TreasuryDAO.M64) (hX : s.treasury < TreasuryDAO.M64) :
    ∃ s' p', TreasuryDAO.execute s sender id now = .ok s' ∧
      s'.proposals[id]? = some p' ∧ p'.executed = true ∧
      (p.encAmount ≤ s.treasury →
        p'.executedEnc = p.encAmount ∧ s'.treasury = s.treasury - p.encAmount) ∧
      (s.treasury < p.encAmount →
        p'.executedEnc = 0 ∧ s'.treasury = s.treasury) := by
  obtain ⟨hlen, -⟩ := List.getElem?_eq_some.mp hp
  have hq' : ¬ p.yesVotes < s.quorum := by omega
  refine ⟨{ s with
      treasury := TreasuryDAO.fheSub s.treasury
        (TreasuryDAO.fheSelect (decide (p.encAmount ≤ s.treasury)) p.encAmount 0)
      proposals := s.proposals.set id { p with
        executedEnc := TreasuryDAO.fheSelect (decide (p.encAmount ≤ s.treasury)) p.encAmount 0
        executed := true } },
    { p with
      executedEnc := TreasuryDAO.fheSelect (decide (p.encAmount ≤ s.treasury)) p.encAmount 0
      executed := true }, ?_, ?_, ?_, ?_, ?_⟩
  · simp only [TreasuryDAO.execute, hm, Bool.not_true, Bool.false_eq_true, if_false, hp, hx,
      hq', if_false]
  · exact List.getElem?_set_self hlen
  · rfl
  · intro hle
    constructor
    · simp [TreasuryDAO.fheSelect, hle]
    · simp only [TreasuryDAO.fheSelect, hle, decide_eq_true_eq, if_pos]
      exact TreasuryDAO.fheSub_of_le hX hle
  · intro hgt
    have hle : ¬ p.encAmount ≤ s.treasury := by omega
    constructor
    · simp [TreasuryDAO.fheSelect, hle]
    · simp only [TreasuryDAO.fheSelect, decide_eq_true_eq, if_neg hle]
      have := TreasuryDAO.fheSub_of_le hX (Nat.zero_le s.treasury)
      simpa using this

/-- Witness for C1: concrete run of `execute` on `tdBase 2 2 100 false`
(quorum `2`, two yes votes, request `40` against treasury `100`). -/
theorem TreasuryDAO.execute_clamps_witness :
    ∃ s' p', TreasuryDAO.execute (tdBase 2 2 100 false) 1 0 10 = .ok s' ∧
      s'.proposals[0]? = some p' ∧ p'.executed = true ∧
      ((40 : Nat) ≤ 100 → p'.executedEnc = 40 ∧ s'.treasury = 100 - 40) ∧
      ((100 : Nat) < 40 → p'.executedEnc = 0 ∧ s'.treasury = 100) :=
  TreasuryDAO.execute_clamps (tdBase 2 2 100 false) 1 0 10
    { recipient := 7, encAmount := 40, yesVotes := 2, deadline := 100,
      executed := false, executedEnc := 0 }
    rfl rfl rfl (by decide) (by norm_num [TreasuryDAO.M64]) (by norm_num [TreasuryDAO.M64, tdBase])

/-- C9: in the Confidential-spend variant a proposal that has reached quorum
is immediately executable by a member, even strictly before its deadline:
`execute` does not require the voting period to have ended. -/
theorem TreasuryDAO.execute_quorum_before_deadline (s : TreasuryDAO.State)
    (sender : TreasuryDAO.Address) (id now : Nat) (p : TreasuryDAO.Proposal)
    (hm : s.isMember sender = true) (hp : s.proposals[id]? = some p)
    (hx : p.executed = false) (hq : s.quorum ≤ p.yesVotes) (ht : now < p.deadline) :
    (TreasuryDAO.execute s sender id now).isOk = true := by
  have hq' : ¬ p.yesVotes < s.quorum := by omega
  simp only [TreasuryDAO.execute, hm, Bool.not_true, Bool.false_eq_true, if_false, hp, hx,
    hq', if_false, Except.isOk, Except.toBool]

/-- Witness for C9: member `1` executes at time `10`, before the deadline
`100`, because the quorum `1` is already met. -/
theorem TreasuryDAO.execute_quorum_before_deadline_witness :
    (10 : Nat) < 100 ∧ (TreasuryDAO.execute (tdBase 1 1 100 false) 1 0 10).isOk = true :=
  ⟨by decide, TreasuryDAO.execute_quorum_before_deadline (tdBase 1 1 100 false) 1 0 10
    { recipient := 7, encAmount := 40, yesVotes := 1, deadline := 100,
      executed := false, executedEnc := 0 }
    rfl rfl rfl (by decide) (by decide)⟩

/-- C3 counterexample: at `now = deadline` the voting period has not yet ended
(`voteYes` still succeeds at that very time), yet `execute` on a short-of-quorum
proposal fails with `QuorumNotReached`, not with `VotingOngoing` as the claim
states for every time at most the deadline. -/
theorem TreasuryDAO.execute_at_deadline_not_votingOngoing :
    TreasuryDAO.execute (tdBase 1 0 100 false) 1 0 100 =
      .error TreasuryDAO.Err.QuorumNotReached ∧
    (TreasuryDAO.voteYes (tdBase 1 0 100 false) 2 0 100).isOk = true :=
  ⟨rfl, rfl⟩

/-- C3 (amended): for a not-yet-executed proposal short of quorum, `execute`
fails with `VotingOngoing` when the current time is strictly before the
deadline, and with `QuorumNotReached` when the current time is at or after the
deadline (so `QuorumNotReached` recurs on every later call in an unchanged
state); the erroring call is a revert and changes no state. -/
theorem TreasuryDAO.execute_below_quorum_errors (s : TreasuryDAO.State)
    (sender : TreasuryDAO.Address) (id now : Nat) (p : TreasuryDAO.Proposal)
    (hm : s.isMember sender = true) (hp : s.proposals[id]? = some p)
    (hx : p.executed = false) (hq : p.yesVotes < s.quorum) :
    (now < p.deadline → TreasuryDAO.execute s sender id now =
      .error TreasuryDAO.Err.VotingOngoing) ∧
    (p.deadline ≤ now → TreasuryDAO.execute s sender id now =
      .error TreasuryDAO.Err.QuorumNotReached) := by
  constructor
  · intro ht
    simp only [TreasuryDAO.execute, hm, Bool.not_true, Bool.false_eq_true, if_false, hp, hx,
      if_pos hq, if_pos ht]
  · intro ht
    have ht' : ¬ now < p.deadline := by omega
    simp only [TreasuryDAO.execute, hm, Bool.not_true, Bool.false_eq_true, if_false, hp, hx,
      if_pos hq, if_neg ht']

/-- Witness for C3 (amended): concrete short-of-quorum proposal, executed at
time `10` (before the deadline `100`) and at time `200` (after it). -/
theorem TreasuryDAO.execute_below_quorum_errors_witness :
    ((10 : Nat) < 100 → TreasuryDAO.execute (tdBase 1 0 100 false) 1 0 10 =
      .error TreasuryDAO.Err.VotingOngoing) ∧
    ((100 : Nat) ≤ 200 → TreasuryDAO.execute (tdBase 1 0 100 false) 1 0 200 =
      .error TreasuryDAO.Err.QuorumNotReached) :=
  ⟨fun h => (TreasuryDAO.execute_below_quorum_errors (tdBase 1 0 100 false) 1 0 10
      { recipient := 7, encAmount := 40, yesVotes := 0, deadline := 100,
        executed := false, executedEnc := 0 } rfl rfl rfl (by decide)).1 h,
   fun h => (TreasuryDAO.execute_below_quorum_errors (tdBase 1 0 100 false) 1 0 200
      { recipient := 7, encAmount := 40, yesVotes := 0, deadline := 100,
        executed := false, executedEnc := 0 } rfl rfl rfl (by decide)).2 h⟩

/-- No external call of the Confidential-spend variant ever clears a
`voted[id][addr]` flag. -/
theorem TreasuryDAO.step_voted_mono (s : TreasuryDAO.State) (c : TreasuryDAO.Call)
    (s' : TreasuryDAO.State) (h : TreasuryDAO.step s c = .ok s') (i : Nat)
    (a : TreasuryDAO.Address) (hv : s.voted i a = true) : s'.voted i a = true := by
  cases c <;>
    simp only [TreasuryDAO.step, TreasuryDAO.addMember, TreasuryDAO.removeMember,
      TreasuryDAO.depositEncrypted, TreasuryDAO.createProposal, TreasuryDAO.updateQuorum,
      TreasuryDAO.voteYes, TreasuryDAO.execute, TreasuryDAO.cancelProposal] at h <;>
    (repeat' split at h) <;>
    (try cases h) <;>
    simp_all

/-- Reading index `i` after writing index `j` of a list. -/
theorem getElem?_set_of_some {α : Type} {l : List α} {i j : Nat} {p : α} (q : α)
    (hp : l[i]? = some p) : (l.set j q)[i]? = some (if i = j then q else p) := by
  by_cases h : i = j
  · subst h
    obtain ⟨hlen, -⟩ := List.getElem?_eq_some.mp hp
    simp [List.getElem?_set_self hlen]
  · rw [List.getElem?_set_ne (Ne.symm h), hp, if_neg h]

/-- No external call of the Confidential-spend variant ever clears a
proposal's `executed` flag. -/
theorem TreasuryDAO.step_executed_mono (s : TreasuryDAO.State) (c : TreasuryDAO.Call)
    (s' : TreasuryDAO.State) (h : TreasuryDAO.step s c = .ok s') (i : Nat)
    (p : TreasuryDAO.Proposal) (hp : s.proposals[i]? = some p) (hx : p.executed = true) :
    ∃ p', s'.proposals[i]? = some p' ∧ p'.executed = true := by
  obtain ⟨hlen, -⟩ := List.getElem?_eq_some.mp hp
  cases c <;>
    simp only [TreasuryDAO.step, TreasuryDAO.addMember, TreasuryDAO.removeMember,
      TreasuryDAO.depositEncrypted, TreasuryDAO.createProposal, TreasuryDAO.updateQuorum,
      TreasuryDAO.voteYes, TreasuryDAO.execute, TreasuryDAO.cancelProposal] at h <;>
    (repeat' split at h) <;>
    (try cases h) <;>
    first
      | exact ⟨p, hp, hx⟩
      | exact ⟨p, by rw [List.getElem?_append_left hlen]; exact hp, hx⟩
      | (refine ⟨_, getElem?_set_of_some _ hp, ?_⟩
         split <;> simp_all)

/-- No external call of the Simple variant ever clears a
`hasVoted[id][addr]` flag. -/
theorem SimpleTreasuryDAO.step_hasVoted_mono (s : SimpleTreasuryDAO.State)
    (c : SimpleTreasuryDAO.Call) (s' : SimpleTreasuryDAO.State)
    (h : SimpleTreasuryDAO.step s c = .ok s') (i : Nat) (a : SimpleTreasuryDAO.Address)
    (hv : s.hasVoted i a = true) : s'.hasVoted i a = true := by
  cases c <;>
    simp only [SimpleTreasuryDAO.step, SimpleTreasuryDAO.deposit, SimpleTreasuryDAO.withdraw,
      SimpleTreasuryDAO.createProposal, SimpleTreasuryDAO.vote,
      SimpleTreasuryDAO.finalizeProposal, SimpleTreasuryDAO.updateMinDeposit] at h <;>
    (repeat' split at h) <;>
    (try cases h) <;>
    simp_all

/-- No external call of the Simple variant ever clears a proposal's
`finalized` flag. -/
theorem SimpleTreasuryDAO.step_finalized_mono (s : SimpleTreasuryDAO.State)
    (c : SimpleTreasuryDAO.Call) (s' : SimpleTreasuryDAO.State)
    (h : SimpleTreasuryDAO.step s c = .ok s') (i : Nat) (p : SimpleTreasuryDAO.Proposal)
    (hp : s.proposals[i]? = some p) (hx : p.finalized = true) :
    ∃ p', s'.proposals[i]? = some p' ∧ p'.finalized = true := by
  obtain ⟨hlen, -⟩ := List.getElem?_eq_some.mp hp
  cases c <;>
    simp only [SimpleTreasuryDAO.step, SimpleTreasuryDAO.deposit, SimpleTreasuryDAO.withdraw,
      SimpleTreasuryDAO.createProposal, SimpleTreasuryDAO.vote,
      SimpleTreasuryDAO.finalizeProposal, SimpleTreasuryDAO.updateMinDeposit] at h <;>
    (repeat' split at h) <;>
    (try cases h) <;>
    first
      | exact ⟨p, hp, hx⟩
      | exact ⟨p, by rw [List.getElem?_append_left hlen]; exact hp, hx⟩
      | (refine ⟨_, getElem?_set_of_some _ hp, ?_⟩
         split <;> simp_all)

/-- C2 counterexample: in the Confidential-spend variant a proposal executed
before its deadline (quorum already met) can still be voted on: member `1`
executes proposal `0` of `tdBase 1 1 100 false` at time `10`, the proposal's
`executed` flag is then `true`, yet member `2`'s `voteYes` at time `50`
(before the deadline `100`) succeeds instead of failing. -/
theorem TreasuryDAO.voteYes_after_execute_succeeds :
    (TreasuryDAO.execute (tdBase 1 1 100 false) 1 0 10).isOk = true ∧
    tdExecuted.proposals[0]?.map TreasuryDAO.Proposal.executed = some true ∧
    (TreasuryDAO.voteYes tdExecuted 2 0 50).isOk = true :=
  ⟨rfl, rfl, rfl⟩

/-- C2 (amended): once `executed` (Confidential-spend variant) or `finalized`
(Simple variant) is set it is never cleared, every later execution,
cancellation or finalization attempt on that proposal fails, and in the Simple
variant every later vote (at any time not before the finalization time, time
being monotone on a chain) also fails; however, in the Confidential-spend
variant a `voteYes` on an already-executed proposal can still succeed before
the deadline, so "all further voting attempts fail" holds only in the Simple
variant. -/
theorem lifecycle_flags_terminal :
    (∀ (s : TreasuryDAO.State) (sender : TreasuryDAO.Address) (id now : Nat)
        (p : TreasuryDAO.Proposal), s.proposals[id]? = some p → p.executed = true →
        (TreasuryDAO.execute s sender id now).isOk = false ∧
        (TreasuryDAO.cancelProposal s sender id).isOk = false) ∧
    (∀ (s : TreasuryDAO.State) (c : TreasuryDAO.Call) (s' : TreasuryDAO.State) (i : Nat)
        (p : TreasuryDAO.Proposal), TreasuryDAO.step s c = .ok s' →
        s.proposals[i]? = some p → p.executed = true →
        ∃ p', s'.proposals[i]? = some p' ∧ p'.executed = true) ∧
    (∀ (s : SimpleTreasuryDAO.State) (sender : SimpleTreasuryDAO.Address) (id now : Nat)
        (p : SimpleTreasuryDAO.Proposal), s.proposals[id]? = some p → p.finalized = true →
        (SimpleTreasuryDAO.finalizeProposal s sender id now).isOk = false) ∧
    (∀ (s : SimpleTreasuryDAO.State) (c : SimpleTreasuryDAO.Call)
        (s' : SimpleTreasuryDAO.State) (i : Nat) (p : SimpleTreasuryDAO.Proposal),
        SimpleTreasuryDAO.step s c = .ok s' → s.proposals[i]? = some p → p.finalized = true →
        ∃ p', s'.proposals[i]? = some p' ∧ p'.finalized = true) ∧
    (∀ (s : SimpleTreasuryDAO.State) (sender : SimpleTreasuryDAO.Address) (id now : Nat)
        (s' : SimpleTreasuryDAO.State),
        SimpleTreasuryDAO.finalizeProposal s sender id now = .ok s' →
        ∀ (sender2 : SimpleTreasuryDAO.Address) (ballot now2 : Nat), now ≤ now2 →
        (SimpleTreasuryDAO.vote s' sender2 id ballot now2).isOk = false) := by
  refine ⟨?_, ?_, ?_, ?_, ?_⟩
  · intro s sender id now p hp hx
    constructor
    · by_cases hm : s.isMember sender
      · simp [TreasuryDAO.execute, hm, hp, hx, Except.isOk, Except.toBool]
      · simp [TreasuryDAO.execute, hm, Except.isOk, Except.toBool]
    · by_cases ho : sender = s.owner
      · simp [TreasuryDAO.cancelProposal, ho, hp, hx, Except.isOk, Except.toBool]
      · simp [TreasuryDAO.cancelProposal, ho, Except.isOk, Except.toBool]
  · exact fun s c s' i p h hp hx => TreasuryDAO.step_executed_mono s c s' h i p hp hx
  · intro s sender id now p hp hx
    have hlen : id < s.proposals.length := (List.getElem?_eq_some.mp hp).1
    have hlen' : ¬ id ≥ s.proposals.length := by omega
    simp [SimpleTreasuryDAO.finalizeProposal, hlen', hp, hx, Except.isOk, Except.toBool]
  · exact fun s c s' i p h hp hx => SimpleTreasuryDAO.step_finalized_mono s c s' h i p hp hx
  · intro s sender id now s' hok sender2 ballot now2 hle
    unfold SimpleTreasuryDAO.finalizeProposal at hok
    split at hok
    · cases hok
    split at hok
    · cases hok
    rename_i p heq
    split at hok
    · cases hok
    split at hok
    · cases hok
    split at hok
    · cases hok
    rename_i hdl
    cases hok
    have hlen : id < s.proposals.length := (List.getElem?_eq_some.mp heq).1
    have hset : (s.proposals.set id { p with finalized := true })[id]? =
        some { p with finalized := true } := List.getElem?_set_self hlen
    have hdl2 : now2 > p.deadline := by omega
    simp only [SimpleTreasuryDAO.vote, List.length_set, hset]
    repeat' split
    all_goals simp_all [Except.isOk, Except.toBool]

/-- Witness for C2 (amended): concrete executed/finalized proposals on which
the later attempts fail. -/
theorem lifecycle_flags_terminal_witness :
    (TreasuryDAO.execute tdExecuted 1 0 200).isOk = false ∧
    (SimpleTreasuryDAO.finalizeProposal stFinalized 0 0 300).isOk = false ∧
    (SimpleTreasuryDAO.vote stFinalized 1 0 1 250).isOk = false :=
  ⟨(lifecycle_flags_terminal.1 tdExecuted 1 0 200 _ rfl rfl).1,
   lifecycle_flags_terminal.2.2.1 stFinalized 0 0 300 _ rfl rfl,
   lifecycle_flags_terminal.2.2.2.2 (stBase 0 100 false) 0 0 200 stFinalized rfl 1 1 250
     (by omega)⟩

/-- C5 counterexample: in the Confidential-spend variant, member `1` votes
successfully on proposal `0` at time `10`, and the later repeat attempt at
time `200` (past the deadline `100`) fails with `PastDeadline`, not with
`AlreadyVoted` as the claim states for every later attempt. -/
theorem TreasuryDAO.second_vote_not_alreadyVoted :
    (TreasuryDAO.voteYes (tdBase 1 0 100 false) 1 0 10).isOk = true ∧
    tdVoted.voted 0 1 = true ∧
    TreasuryDAO.voteYes tdVoted 1 0 200 = .error TreasuryDAO.Err.PastDeadline ∧
    TreasuryDAO.Err.PastDeadline ≠ TreasuryDAO.Err.AlreadyVoted :=
  ⟨rfl, rfl, rfl, by decide⟩

/-- C5 (amended): in both variants at most one vote per (proposal, identity)
ever succeeds: a successful vote sets the (proposalId, identity) voted flag,
no operation ever clears that flag, and every later vote attempt by the same
identity on the same proposal fails — with `AlreadyVoted` whenever the checks
performed before the voted-flag check (membership and deadline in the
Confidential-spend variant; existence and deposit in the Simple variant) pass,
and otherwise with that earlier check's error. -/
theorem single_vote_per_identity :
    (∀ (s : TreasuryDAO.State) (sender : TreasuryDAO.Address) (id now : Nat)
        (s' : TreasuryDAO.State), TreasuryDAO.voteYes s sender id now = .ok s' →
        s'.voted id sender = true) ∧
    (∀ (s : TreasuryDAO.State) (c : TreasuryDAO.Call) (s' : TreasuryDAO.State) (i : Nat)
        (a : TreasuryDAO.Address), TreasuryDAO.step s c = .ok s' →
        s.voted i a = true → s'.voted i a = true) ∧
    (∀ (s : TreasuryDAO.State) (sender : TreasuryDAO.Address) (id now : Nat)
        (p : TreasuryDAO.Proposal), s.proposals[id]? = some p →
        s.voted id sender = true → s.isMember sender = true → now ≤ p.deadline →
        TreasuryDAO.voteYes s sender id now = .error TreasuryDAO.Err.AlreadyVoted) ∧
    (∀ (s : TreasuryDAO.State) (sender : TreasuryDAO.Address) (id now : Nat)
        (s' : TreasuryDAO.State) (now' : Nat), TreasuryDAO.voteYes s sender id now = .ok s' →
        (TreasuryDAO.voteYes s' sender id now').isOk = false) ∧
    (∀ (s : SimpleTreasuryDAO.State) (sender : SimpleTreasuryDAO.Address)
        (id ballot now : Nat) (s' : SimpleTreasuryDAO.State),
        SimpleTreasuryDAO.vote s sender id ballot now = .ok s' →
        s'.hasVoted id sender = true) ∧
    (∀ (s : SimpleTreasuryDAO.State) (c : SimpleTreasuryDAO.Call)
        (s' : SimpleTreasuryDAO.State) (i : Nat) (a : SimpleTreasuryDAO.Address),
        SimpleTreasuryDAO.step s c = .ok s' → s.hasVoted i a = true → s'.hasVoted i a = true) ∧
    (∀ (s : SimpleTreasuryDAO.State) (sender : SimpleTreasuryDAO.Address)
        (id ballot now : Nat), id < s.proposals.length →
        s.minDepositToVote ≤ s.deposits sender → s.hasVoted id sender = true →
        SimpleTreasuryDAO.vote s sender id ballot now =
          .error SimpleTreasuryDAO.Err.AlreadyVoted) ∧
    (∀ (s : SimpleTreasuryDAO.State) (sender : SimpleTreasuryDAO.Address)
        (id ballot now : Nat) (s' : SimpleTreasuryDAO.State) (ballot' now' : Nat),
        SimpleTreasuryDAO.vote s sender id ballot now = .ok s' →
        SimpleTreasuryDAO.vote s' sender id ballot' now' =
          .error SimpleTreasuryDAO.Err.AlreadyVoted) := by
  refine ⟨?_, ?_, ?_, ?_, ?_, ?_, ?_, ?_⟩
  · intro s sender id now s' h
    unfold TreasuryDAO.voteYes at h
    split at h
    · cases h
    split at h
    · cases h
    split at h
    · cases h
    split at h
    · cases h
    cases h
    simp
  · exact fun s c s' i a h hv => TreasuryDAO.step_voted_mono s c s' h i a hv
  · intro s sender id now p hp hv hm ht
    have ht' : ¬ now > p.deadline := by omega
    simp [TreasuryDAO.voteYes, hm, hp, ht', hv]
  · intro s sender id now s' now' h
    unfold TreasuryDAO.voteYes at h
    split at h
    · cases h
    rename_i hm
    split at h
    · cases h
    rename_i p heq
    split at h
    · cases h
    split at h
    · cases h
    cases h
    have hlen : id < s.proposals.length := (List.getElem?_eq_some.mp heq).1
    have hset : (s.proposals.set id { p with yesVotes := p.yesVotes + 1 })[id]? =
        some { p with yesVotes := p.yesVotes + 1 } := List.getElem?_set_self hlen
    have hm' : s.isMember sender = true := by
      revert hm; simp
    simp only [TreasuryDAO.voteYes, hm', Bool.not_true, Bool.false_eq_true, if_false, hset]
    split
    · rfl
    · simp [Except.isOk, Except.toBool]
  · intro s sender id ballot now s' h
    unfold SimpleTreasuryDAO.vote at h
    split at h
    · cases h
    split at h
    · cases h
    split at h
    · cases h
    split at h
    · cases h
    split at h
    · cases h
    cases h
    simp
  · exact fun s c s' i a h hv => SimpleTreasuryDAO.step_hasVoted_mono s c s' h i a hv
  · intro s sender id ballot now hlen hd hv
    have h1 : ¬ id ≥ s.proposals.length := by omega
    have h2 : ¬ s.deposits sender < s.minDepositToVote := by omega
    simp [SimpleTreasuryDAO.vote, h1, h2, hv]
  · intro s sender id ballot now s' ballot' now' h
    unfold SimpleTreasuryDAO.vote at h
    split at h
    · cases h
    rename_i hlen
    split at h
    · cases h
    rename_i hd
    split at h
    · cases h
    split at h
    · cases h
    rename_i p heq
    split at h
    · cases h
    cases h
    have hlen' : id < s.proposals.length := by omega
    have h1 : ¬ id ≥ (s.proposals.set id { p with
        encryptedYesVotes := TreasuryDAO.fheAdd p.encryptedYesVotes
          (TreasuryDAO.fheSelect (decide (TreasuryDAO.fromExternal ballot = 1)) 1 0)
        encryptedNoVotes := TreasuryDAO.fheAdd p.encryptedNoVotes
          (TreasuryDAO.fheSelect (decide (TreasuryDAO.fromExternal ballot = 0)) 1 0) }).length := by
      simpa using hlen
    simp only [SimpleTreasuryDAO.vote]
    rw [if_neg h1]
    have h2 : ¬ s.deposits sender < s.minDepositToVote := hd
    simp [h2]

/-- Witness for C5 (amended): concrete repeat-vote attempts. -/
theorem single_vote_per_identity_witness :
    TreasuryDAO.voteYes tdVoted 1 0 50 = .error TreasuryDAO.Err.AlreadyVoted ∧
    (TreasuryDAO.voteYes tdVoted 1 0 200).isOk = false ∧
    SimpleTreasuryDAO.vote stVoted 1 0 1 300 = .error SimpleTreasuryDAO.Err.AlreadyVoted :=
  ⟨single_vote_per_identity.2.2.1 tdVoted 1 0 50 _ rfl rfl rfl (by decide),
   single_vote_per_identity.2.2.2.1 (tdBase 1 0 100 false) 1 0 10 tdVoted 200 rfl,
   single_vote_per_identity.2.2.2.2.2.2.2 (stBase 0 100 false) 1 0 1 50 stVoted 1 300 rfl⟩

theorem TreasuryDAO.fheAdd_one {y : Nat} (hy : y + 1 < TreasuryDAO.M64) :
    TreasuryDAO.fheAdd y 1 = y + 1 := by
  unfold TreasuryDAO.fheAdd
  exact Nat.mod_eq_of_lt hy

theorem TreasuryDAO.fheAdd_zero {y : Nat} (hy : y < TreasuryDAO.M64) :
    TreasuryDAO.fheAdd y 0 = y := by
  unfold TreasuryDAO.fheAdd
  simpa using Nat.mod_eq_of_lt hy

/-- C4: a successful Simple-variant `vote`, read on plaintexts: ballot `1`
adds exactly `1` to the yes tally and nothing to the no tally, ballot `0` adds
exactly `1` to the no tally and nothing to the yes tally, and any other ballot
value changes neither tally — while the caller is still marked as having voted
and the call succeeds.  (The overflow-freedom hypotheses hold for all stored
tallies, which are `euint64` plaintexts below `2^64 - 1` in any state reached
by fewer than `2^64 - 1` voters.) -/
theorem SimpleTreasuryDAO.vote_tally_update (s : SimpleTreasuryDAO.State)
    (sender : SimpleTreasuryDAO.Address) (proposalId ballot now : Nat)
    (p : SimpleTreasuryDAO.Proposal) (hp : s.proposals[proposalId]? = some p)
    (hd : s.minDepositToVote ≤ s.deposits sender)
    (hv : s.hasVoted proposalId sender = false) (ht : now ≤ p.deadline)
    (hb : ballot < SimpleTreasuryDAO.M64)
    (hy : p.encryptedYesVotes + 1 < SimpleTreasuryDAO.M64)
    (hn : p.encryptedNoVotes + 1 < SimpleTreasuryDAO.M64) :
    ∃ s' p', SimpleTreasuryDAO.vote s sender proposalId ballot now = .ok s' ∧
      s'.proposals[proposalId]? = some p' ∧
      s'.hasVoted proposalId sender = true ∧
      (ballot = 1 → p'.encryptedYesVotes = p.encryptedYesVotes + 1 ∧
        p'.encryptedNoVotes = p.encryptedNoVotes) ∧
      (ballot = 0 → p'.encryptedNoVotes = p.encryptedNoVotes + 1 ∧
        p'.encryptedYesVotes = p.encryptedYesVotes) ∧
      (ballot ≠ 0 → ballot ≠ 1 → p'.encryptedYesVotes = p.encryptedYesVotes ∧
        p'.encryptedNoVotes = p.encryptedNoVotes) := by
  simp only [SimpleTreasuryDAO.M64] at hb hy hn
  have hlen : proposalId < s.proposals.length := (List.getElem?_eq_some.mp hp).1
  have h1 : ¬ proposalId ≥ s.proposals.length := by omega
  have h2 : ¬ s.deposits sender < s.minDepositToVote := by omega
  have ht' : ¬ now > p.deadline := by omega
  have hball : TreasuryDAO.fromExternal ballot = ballot :=
    Nat.mod_eq_of_lt hb
  refine ⟨{ s with
      proposals := s.proposals.set proposalId { p with
        encryptedYesVotes := TreasuryDAO.fheAdd p.encryptedYesVotes
          (TreasuryDAO.fheSelect (decide (TreasuryDAO.fromExternal ballot = 1)) 1 0)
        encryptedNoVotes := TreasuryDAO.fheAdd p.encryptedNoVotes
          (TreasuryDAO.fheSelect (decide (TreasuryDAO.fromExternal ballot = 0)) 1 0) }
      hasVoted := fun j a => if j = proposalId ∧ a = sender then true else s.hasVoted j a },
    { p with
      encryptedYesVotes := TreasuryDAO.fheAdd p.encryptedYesVotes
        (TreasuryDAO.fheSelect (decide (TreasuryDAO.fromExternal ballot = 1)) 1 0)
      encryptedNoVotes := TreasuryDAO.fheAdd p.encryptedNoVotes
        (TreasuryDAO.fheSelect (decide (TreasuryDAO.fromExternal ballot = 0)) 1 0) },
    ?_, ?_, ?_, ?_, ?_, ?_⟩
  · simp only [SimpleTreasuryDAO.vote, if_neg h1, if_neg h2, hv, Bool.false_eq_true, if_false,
      hp, if_neg ht']
  · exact List.getElem?_set_self hlen
  · simp
  · intro hb1
    subst hb1
    rw [hball]
    norm_num [TreasuryDAO.fheSelect]
    exact ⟨TreasuryDAO.fheAdd_one hy, TreasuryDAO.fheAdd_zero (by omega)⟩
  · intro hb0
    subst hb0
    rw [hball]
    norm_num [TreasuryDAO.fheSelect]
    exact ⟨TreasuryDAO.fheAdd_one hn, TreasuryDAO.fheAdd_zero (by omega)⟩
  · intro hb0 hb1
    rw [hball]
    simp only [TreasuryDAO.fheSelect, decide_eq_true_eq]
    rw [if_neg hb1, if_neg hb0]
    exact ⟨TreasuryDAO.fheAdd_zero (by omega), TreasuryDAO.fheAdd_zero (by omega)⟩

/-- Witness for C4: identity `1` votes ballot `1`, ballot `0`, and ballot `7`
on proposal `0` of `stBase 0 100 false` (tallies start at `3` yes / `4` no). -/
theorem SimpleTreasuryDAO.vote_tally_update_witness :
    (∃ s' p', SimpleTreasuryDAO.vote (stBase 0 100 false) 1 0 1 50 = .ok s' ∧
      s'.proposals[0]? = some p' ∧ s'.hasVoted 0 1 = true ∧
      ((1 : Nat) = 1 → p'.encryptedYesVotes = 3 + 1 ∧ p'.encryptedNoVotes = 4) ∧
      ((1 : Nat) = 0 → p'.encryptedNoVotes = 4 + 1 ∧ p'.encryptedYesVotes = 3) ∧
      ((1 : Nat) ≠ 0 → (1 : Nat) ≠ 1 → p'.encryptedYesVotes = 3 ∧
        p'.encryptedNoVotes = 4)) ∧
    (∃ s' p', SimpleTreasuryDAO.vote (stBase 0 100 false) 1 0 7 50 = .ok s' ∧
      s'.proposals[0]? = some p' ∧ s'.hasVoted 0 1 = true ∧
      ((7 : Nat) = 1 → p'.encryptedYesVotes = 3 + 1 ∧ p'.encryptedNoVotes = 4) ∧
      ((7 : Nat) = 0 → p'.encryptedNoVotes = 4 + 1 ∧ p'.encryptedYesVotes = 3) ∧
      ((7 : Nat) ≠ 0 → (7 : Nat) ≠ 1 → p'.encryptedYesVotes = 3 ∧
        p'.encryptedNoVotes = 4)) :=
  ⟨SimpleTreasuryDAO.vote_tally_update (stBase 0 100 false) 1 0 1 50
      { id := 0, title := "grant", description := "fund the work", proposer := 1, amount := 5,
        recipient := 7, deadline := 100, encryptedYesVotes := 3, encryptedNoVotes := 4,
        finalized := false }
      rfl (by decide) rfl (by decide) (by norm_num [SimpleTreasuryDAO.M64, TreasuryDAO.M64])
      (by norm_num [SimpleTreasuryDAO.M64, TreasuryDAO.M64])
      (by norm_num [SimpleTreasuryDAO.M64, TreasuryDAO.M64]),
   SimpleTreasuryDAO.vote_tally_update (stBase 0 100 false) 1 0 7 50
      { id := 0, title := "grant", description := "fund the work", proposer := 1, amount := 5,
        recipient := 7, deadline := 100, encryptedYesVotes := 3, encryptedNoVotes := 4,
        finalized := false }
      rfl (by decide) rfl (by decide) (by norm_num [SimpleTreasuryDAO.M64, TreasuryDAO.M64])
      (by norm_num [SimpleTreasuryDAO.M64, TreasuryDAO.M64])
      (by norm_num [SimpleTreasuryDAO.M64, TreasuryDAO.M64])⟩

/-- C6 counterexample: calling `voteYes` with an out-of-range proposal id (the
state has no proposals) fails with the generic array-out-of-bounds panic,
which is none of the contract's nine named errors. -/
theorem TreasuryDAO.voteYes_oob_generic_panic :
    TreasuryDAO.voteYes tdNoProposals 1 0 10 = .error TreasuryDAO.Err.panicOutOfBounds ∧
    TreasuryDAO.Err.panicOutOfBounds ∉ [TreasuryDAO.Err.NotOwner, TreasuryDAO.Err.NotMember,
      TreasuryDAO.Err.PastDeadline, TreasuryDAO.Err.AlreadyVoted,
      TreasuryDAO.Err.AlreadyExecuted, TreasuryDAO.Err.QuorumNotReached,
      TreasuryDAO.Err.VotingOngoing, TreasuryDAO.Err.InvalidVotingPeriod,
      TreasuryDAO.Err.InvalidRecipient] :=
  ⟨rfl, by decide⟩

/-- C6 (amended): every failure of a Confidential-spend operation is one of
the nine named errors, except that an out-of-range proposal id in `voteYes`,
`execute`, `cancelProposal`, `getExecutedAmount` or `getRequestedAmount`
fails with the generic array-out-of-bounds panic instead of a named error;
with an in-range id (or in an operation that takes no id) the panic never
occurs. -/
theorem TreasuryDAO.named_errors_except_oob_panic :
    (∀ (s : TreasuryDAO.State) (sender : TreasuryDAO.Address) (id now : Nat),
        s.isMember sender = true → s.proposals.length ≤ id →
        TreasuryDAO.voteYes s sender id now = .error TreasuryDAO.Err.panicOutOfBounds ∧
        TreasuryDAO.execute s sender id now = .error TreasuryDAO.Err.panicOutOfBounds) ∧
    (∀ (s : TreasuryDAO.State) (id : Nat), s.proposals.length ≤ id →
        TreasuryDAO.cancelProposal s s.owner id = .error TreasuryDAO.Err.panicOutOfBounds ∧
        TreasuryDAO.getExecutedAmount s id = .error TreasuryDAO.Err.panicOutOfBounds ∧
        TreasuryDAO.getRequestedAmount s id = .error TreasuryDAO.Err.panicOutOfBounds) ∧
    (∀ (s : TreasuryDAO.State) (c : TreasuryDAO.Call),
        (∀ id, c.pid = some id → id < s.proposals.length) →
        TreasuryDAO.step s c ≠ .error TreasuryDAO.Err.panicOutOfBounds) ∧
    (∀ (s : TreasuryDAO.State) (id : Nat), id < s.proposals.length →
        TreasuryDAO.getExecutedAmount s id ≠ .error TreasuryDAO.Err.panicOutOfBounds ∧
        TreasuryDAO.getRequestedAmount s id ≠ .error TreasuryDAO.Err.panicOutOfBounds) := by
  refine ⟨?_, ?_, ?_, ?_⟩
  · intro s sender id now hm hlen
    have hnone : s.proposals[id]? = none := List.getElem?_eq_none hlen
    exact ⟨by simp [TreasuryDAO.voteYes, hm, hnone],
           by simp [TreasuryDAO.execute, hm, hnone]⟩
  · intro s id hlen
    have hnone : s.proposals[id]? = none := List.getElem?_eq_none hlen
    exact ⟨by simp [TreasuryDAO.cancelProposal, hnone],
           by simp [TreasuryDAO.getExecutedAmount, hnone],
           by simp [TreasuryDAO.getRequestedAmount, hnone]⟩
  · intro s c hpid
    cases c with
    | addMember sender m =>
      simp only [TreasuryDAO.step, TreasuryDAO.addMember]
      split <;> simp
    | removeMember sender m =>
      simp only [TreasuryDAO.step, TreasuryDAO.removeMember]
      split <;> simp
    | depositEncrypted sender amt =>
      simp only [TreasuryDAO.step, TreasuryDAO.depositEncrypted]
      split <;> simp
    | createProposal sender recipient amt period now =>
      simp only [TreasuryDAO.step, TreasuryDAO.createProposal]
      repeat' split
      all_goals simp
    | updateQuorum sender q =>
      simp only [TreasuryDAO.step, TreasuryDAO.updateQuorum]
      split <;> simp
    | voteYes sender id now =>
      have hlt : id < s.proposals.length := hpid id rfl
      obtain ⟨q, hsome⟩ : ∃ q, s.proposals[id]? = some q :=
        ⟨_, List.getElem?_eq_getElem hlt⟩
      simp only [TreasuryDAO.step, TreasuryDAO.voteYes, hsome]
      repeat' split
      all_goals simp
    | execute sender id now =>
      have hlt : id < s.proposals.length := hpid id rfl
      obtain ⟨q, hsome⟩ : ∃ q, s.proposals[id]? = some q :=
        ⟨_, List.getElem?_eq_getElem hlt⟩
      simp only [TreasuryDAO.step, TreasuryDAO.execute, hsome]
      repeat' split
      all_goals simp
    | cancelProposal sender id =>
      have hlt : id < s.proposals.length := hpid id rfl
      obtain ⟨q, hsome⟩ : ∃ q, s.proposals[id]? = some q :=
        ⟨_, List.getElem?_eq_getElem hlt⟩
      simp only [TreasuryDAO.step, TreasuryDAO.cancelProposal, hsome]
      repeat' split
      all_goals simp
  · intro s id hlt
    obtain ⟨q, hsome⟩ : ∃ q, s.proposals[id]? = some q :=
      ⟨_, List.getElem?_eq_getElem hlt⟩
    exact ⟨by simp [TreasuryDAO.getExecutedAmount, hsome],
           by simp [TreasuryDAO.getRequestedAmount, hsome]⟩

/-- Witness for C6 (amended): out-of-range id `5` panics; the in-range calls
never return the panic. -/
theorem TreasuryDAO.named_errors_except_oob_panic_witness :
    TreasuryDAO.execute tdNoProposals 1 5 10 = .error TreasuryDAO.Err.panicOutOfBounds ∧
    TreasuryDAO.getExecutedAmount tdNoProposals 5 = .error TreasuryDAO.Err.panicOutOfBounds ∧
    TreasuryDAO.step (tdBase 1 0 100 false) (TreasuryDAO.Call.voteYes 1 0 50) ≠
      .error TreasuryDAO.Err.panicOutOfBounds ∧
    TreasuryDAO.getRequestedAmount (tdBase 1 0 100 false) 0 ≠
      .error TreasuryDAO.Err.panicOutOfBounds :=
  ⟨(TreasuryDAO.named_errors_except_oob_panic.1 tdNoProposals 1 5 10 rfl (by decide)).2,
   (TreasuryDAO.named_errors_except_oob_panic.2.1 tdNoProposals 5 (by decide)).2.1,
   TreasuryDAO.named_errors_except_oob_panic.2.2.1 (tdBase 1 0 100 false)
     (TreasuryDAO.Call.voteYes 1 0 50) (by intro i hi; cases hi; decide),
   (TreasuryDAO.named_errors_except_oob_panic.2.2.2 (tdBase 1 0 100 false) 0 (by decide)).2⟩

/-- C7: for an existing Simple-variant proposal, `finalizeProposal` succeeds
exactly when the proposal is not yet finalized, the caller is the owner or the
proposer, and the current time is strictly past the deadline; it fails with
`AlreadyFinalized` / `NotProposer` / `VotingEnded` on the respective violated
precondition (checked in that order), and a second call after a success fails
with `AlreadyFinalized`. -/
theorem SimpleTreasuryDAO.finalizeProposal_spec (s : SimpleTreasuryDAO.State)
    (sender : SimpleTreasuryDAO.Address) (id now : Nat) (p : SimpleTreasuryDAO.Proposal)
    (hp : s.proposals[id]? = some p) :
    ((SimpleTreasuryDAO.finalizeProposal s sender id now).isOk = true ↔
      (p.finalized = false ∧ (sender = s.owner ∨ sender = p.proposer) ∧ p.deadline < now)) ∧
    (p.finalized = true → SimpleTreasuryDAO.finalizeProposal s sender id now =
      .error SimpleTreasuryDAO.Err.AlreadyFinalized) ∧
    (p.finalized = false → sender ≠ s.owner → sender ≠ p.proposer →
      SimpleTreasuryDAO.finalizeProposal s sender id now =
        .error SimpleTreasuryDAO.Err.NotProposer) ∧
    (p.finalized = false → (sender = s.owner ∨ sender = p.proposer) → now ≤ p.deadline →
      SimpleTreasuryDAO.finalizeProposal s sender id now =
        .error SimpleTreasuryDAO.Err.VotingEnded) ∧
    (∀ (s' : SimpleTreasuryDAO.State) (now' : Nat),
      SimpleTreasuryDAO.finalizeProposal s sender id now = .ok s' →
      SimpleTreasuryDAO.finalizeProposal s' sender id now' =
        .error SimpleTreasuryDAO.Err.AlreadyFinalized) := by
  have hlen : id < s.proposals.length := (List.getElem?_eq_some.mp hp).1
  have h1 : ¬ id ≥ s.proposals.length := by omega
  refine ⟨?_, ?_, ?_, ?_, ?_⟩
  · constructor
    · intro h
      by_cases hf : p.finalized = true
      · simp [SimpleTreasuryDAO.finalizeProposal, if_neg h1, hp, hf, Except.isOk,
          Except.toBool] at h
      · by_cases hc : sender = s.owner ∨ sender = p.proposer
        · by_cases hdl : now ≤ p.deadline
          · have hcc : ¬ (sender ≠ s.owner ∧ sender ≠ p.proposer) := by tauto
            simp [SimpleTreasuryDAO.finalizeProposal, if_neg h1, hp, hf, hcc, hdl,
              Except.isOk, Except.toBool] at h
          · exact ⟨by simpa using hf, hc, by omega⟩
        · have hcc : sender ≠ s.owner ∧ sender ≠ p.proposer := by tauto
          simp [SimpleTreasuryDAO.finalizeProposal, if_neg h1, hp, hf, hcc,
            Except.isOk, Except.toBool] at h
    · rintro ⟨hf, hc, hdl⟩
      have hcc : ¬ (sender ≠ s.owner ∧ sender ≠ p.proposer) := by tauto
      have hdl' : ¬ now ≤ p.deadline := by omega
      simp [SimpleTreasuryDAO.finalizeProposal, if_neg h1, hp, hf, hcc, hdl',
        Except.isOk, Except.toBool]
  · intro hf
    simp [SimpleTreasuryDAO.finalizeProposal, if_neg h1, hp, hf]
  · intro hf ho hpr
    simp [SimpleTreasuryDAO.finalizeProposal, if_neg h1, hp, hf, ho, hpr]
  · intro hf hc hdl
    have hcc : ¬ (sender ≠ s.owner ∧ sender ≠ p.proposer) := by tauto
    simp [SimpleTreasuryDAO.finalizeProposal, if_neg h1, hp, hf, hcc, hdl]
  · intro s' now' hok
    unfold SimpleTreasuryDAO.finalizeProposal at hok
    split at hok
    · cases hok
    split at hok
    · cases hok
    rename_i q heq
    split at hok
    · cases hok
    split at hok
    · cases hok
    split at hok
    · cases hok
    cases hok
    have hset : (s.proposals.set id { q with finalized := true })[id]? =
        some { q with finalized := true } := List.getElem?_set_self hlen
    have h1' : ¬ id ≥ (s.proposals.set id { q with finalized := true }).length := by
      simpa using h1
    simp [SimpleTreasuryDAO.finalizeProposal, if_neg h1', hset]
    all_goals omega

/-- Witness for C7: the owner finalizes proposal `0` of `stBase 0 100 false`
at time `200`, and a second finalization attempt fails with
`AlreadyFinalized`. -/
theorem SimpleTreasuryDAO.finalizeProposal_spec_witness :
    (SimpleTreasuryDAO.finalizeProposal (stBase 0 100 false) 0 0 200).isOk = true ∧
    SimpleTreasuryDAO.finalizeProposal stFinalized 0 0 300 =
      .error SimpleTreasuryDAO.Err.AlreadyFinalized := by
  have h := SimpleTreasuryDAO.finalizeProposal_spec (stBase 0 100 false) 0 0 200 _ rfl
  exact ⟨h.1.mpr ⟨rfl, Or.inl rfl, by decide⟩, h.2.2.2.2 stFinalized 300 rfl⟩

/-- Effect of one successful call on one identity's recorded balance. -/
theorem SimpleTreasuryDAO.step_deposits (s : SimpleTreasuryDAO.State)
    (c : SimpleTreasuryDAO.Call) (s' : SimpleTreasuryDAO.State)
    (h : SimpleTreasuryDAO.step s c = .ok s') (a : SimpleTreasuryDAO.Address) :
    s'.deposits a + SimpleTreasuryDAO.wdOf a c =
      s.deposits a + SimpleTreasuryDAO.depOf a c := by
  cases c with
  | deposit b v =>
    simp only [SimpleTreasuryDAO.step, SimpleTreasuryDAO.deposit] at h
    split at h
    · cases h
    split at h
    · cases h
    cases h
    simp only [SimpleTreasuryDAO.wdOf, SimpleTreasuryDAO.depOf]
    by_cases hab : a = b
    · subst hab
      simp
    · rw [if_neg (fun hh : b = a => hab hh.symm)]
      simp [hab]
  | withdraw b v =>
    simp only [SimpleTreasuryDAO.step, SimpleTreasuryDAO.withdraw] at h
    split at h
    · cases h
    rename_i hge
    cases h
    simp only [SimpleTreasuryDAO.wdOf, SimpleTreasuryDAO.depOf]
    by_cases hab : a = b
    · subst hab
      simp only [eq_self_iff_true, if_true, ite_true]
      omega
    · rw [if_neg (fun hh : b = a => hab hh.symm)]
      simp [hab]
  | createProposal sender title description amount recipient days now =>
    simp only [SimpleTreasuryDAO.step, SimpleTreasuryDAO.createProposal] at h
    repeat' split at h
    all_goals (try cases h)
    all_goals simp [SimpleTreasuryDAO.wdOf, SimpleTreasuryDAO.depOf]
  | vote sender id ballot now =>
    simp only [SimpleTreasuryDAO.step, SimpleTreasuryDAO.vote] at h
    repeat' split at h
    all_goals (try cases h)
    all_goals simp [SimpleTreasuryDAO.wdOf, SimpleTreasuryDAO.depOf]
  | finalizeProposal sender id now =>
    simp only [SimpleTreasuryDAO.step, SimpleTreasuryDAO.finalizeProposal] at h
    repeat' split at h
    all_goals (try cases h)
    all_goals simp [SimpleTreasuryDAO.wdOf, SimpleTreasuryDAO.depOf]
  | updateMinDeposit sender v =>
    simp only [SimpleTreasuryDAO.step, SimpleTreasuryDAO.updateMinDeposit] at h
    split at h
    · cases h
    cases h
    simp [SimpleTreasuryDAO.wdOf, SimpleTreasuryDAO.depOf]

/-- The recorded balance plus successful withdrawals equals the starting
balance plus successful deposits, over any finite trace of calls. -/
theorem SimpleTreasuryDAO.run_ledger (a : SimpleTreasuryDAO.Address)
    (cs : List SimpleTreasuryDAO.Call) :
    ∀ s : SimpleTreasuryDAO.State,
      (SimpleTreasuryDAO.run s cs).deposits a + SimpleTreasuryDAO.wdSum a s cs =
        s.deposits a + SimpleTreasuryDAO.depSum a s cs := by
  induction cs with
  | nil =>
    intro s
    simp [SimpleTreasuryDAO.run, SimpleTreasuryDAO.wdSum, SimpleTreasuryDAO.depSum]
  | cons c cs ih =>
    intro s
    simp only [SimpleTreasuryDAO.run, SimpleTreasuryDAO.wdSum, SimpleTreasuryDAO.depSum]
    cases hstep : SimpleTreasuryDAO.step s c with
    | error e =>
      simp only [SimpleTreasuryDAO.runCall, hstep, Except.isOk, Except.toBool,
        Bool.false_eq_true, if_false]
      have := ih s
      simp only [SimpleTreasuryDAO.runCall, hstep] at this ⊢
      omega
    | ok s1 =>
      have hd := SimpleTreasuryDAO.step_deposits s c s1 hstep a
      have := ih s1
      simp only [SimpleTreasuryDAO.runCall, hstep, Except.isOk, Except.toBool, if_true]
      omega

/-- C8: an identity's recorded Simple-variant deposit balance always equals
its starting balance plus the values of its successful deposits minus the
amounts of its successful withdrawals (stated additively over `Nat`, which
also shows the balance never goes negative); `deposit` of value `0` fails
with `InvalidAmount`, and `withdraw` of more than the recorded balance fails
with `InvalidAmount` (and, being an error, changes no state). -/
theorem SimpleTreasuryDAO.ledger_invariant (s : SimpleTreasuryDAO.State)
    (a : SimpleTreasuryDAO.Address) (amt : Nat) (cs : List SimpleTreasuryDAO.Call)
    (hw : s.deposits a < amt) :
    (SimpleTreasuryDAO.run s cs).deposits a + SimpleTreasuryDAO.wdSum a s cs =
      s.deposits a + SimpleTreasuryDAO.depSum a s cs ∧
    SimpleTreasuryDAO.deposit s a 0 = .error SimpleTreasuryDAO.Err.InvalidAmount ∧
    SimpleTreasuryDAO.withdraw s a amt = .error SimpleTreasuryDAO.Err.InvalidAmount :=
  ⟨SimpleTreasuryDAO.run_ledger a cs s,
   by simp [SimpleTreasuryDAO.deposit],
   by simp [SimpleTreasuryDAO.withdraw, hw]⟩

/-- Witness for C8: identity `1` starts at `50`, deposits `10`, withdraws
`4`, a stranger deposits `5`, and an over-balance withdrawal of `100` fails;
the ledger equation holds and `withdraw 60` / `deposit 0` fail. -/
theorem SimpleTreasuryDAO.ledger_invariant_witness :
    ((SimpleTreasuryDAO.run (stBase 0 100 false)
        [SimpleTreasuryDAO.Call.deposit 1 10, SimpleTreasuryDAO.Call.withdraw 1 4,
         SimpleTreasuryDAO.Call.deposit 2 5, SimpleTreasuryDAO.Call.withdraw 1 100]).deposits 1 +
      SimpleTreasuryDAO.wdSum 1 (stBase 0 100 false)
        [SimpleTreasuryDAO.Call.deposit 1 10, SimpleTreasuryDAO.Call.withdraw 1 4,
         SimpleTreasuryDAO.Call.deposit 2 5, SimpleTreasuryDAO.Call.withdraw 1 100] =
      (stBase 0 100 false).deposits 1 +
      SimpleTreasuryDAO.depSum 1 (stBase 0 100 false)
        [SimpleTreasuryDAO.Call.deposit 1 10, SimpleTreasuryDAO.Call.withdraw 1 4,
         SimpleTreasuryDAO.Call.deposit 2 5, SimpleTreasuryDAO.Call.withdraw 1 100]) ∧
    SimpleTreasuryDAO.deposit (stBase 0 100 false) 1 0 =
      .error SimpleTreasuryDAO.Err.InvalidAmount ∧
    SimpleTreasuryDAO.withdraw (stBase 0 100 false) 1 60 =
      .error SimpleTreasuryDAO.Err.InvalidAmount :=
  SimpleTreasuryDAO.ledger_invariant (stBase 0 100 false) 1 60
    [SimpleTreasuryDAO.Call.deposit 1 10, SimpleTreasuryDAO.Call.withdraw 1 4,
     SimpleTreasuryDAO.Call.deposit 2 5, SimpleTreasuryDAO.Call.withdraw 1 100]
    (by decide)

/-- C10: the quorum (Confidential-spend variant) and the minimum deposit
(Simple variant) are read at call time, not at proposal creation: the owner
may change them at any time, and the concrete scenarios show a proposal that
was not executable becoming executable with no new votes after
`updateQuorum`, and a vote that was ineligible becoming eligible after
`updateMinDeposit`. -/
theorem quorum_and_minDeposit_read_at_call_time :
    (∀ (s : TreasuryDAO.State) (q : Nat),
      TreasuryDAO.updateQuorum s s.owner q = .ok { s with quorum := q }) ∧
    (∀ (s : SimpleTreasuryDAO.State) (v : Nat),
      SimpleTreasuryDAO.updateMinDeposit s s.owner v = .ok { s with minDepositToVote := v }) ∧
    TreasuryDAO.execute (tdBase 2 1 100 false) 1 0 200 =
      .error TreasuryDAO.Err.QuorumNotReached ∧
    (TreasuryDAO.updateQuorum (tdBase 2 1 100 false) 0 1).isOk = true ∧
    tdQuorumLowered.proposals = (tdBase 2 1 100 false).proposals ∧
    (TreasuryDAO.execute tdQuorumLowered 1 0 200).isOk = true ∧
    SimpleTreasuryDAO.vote (stBase 100 100 false) 1 0 1 50 =
      .error SimpleTreasuryDAO.Err.InsufficientDeposit ∧
    (SimpleTreasuryDAO.updateMinDeposit (stBase 100 100 false) 0 10).isOk = true ∧
    stMinLowered.deposits 1 = (stBase 100 100 false).deposits 1 ∧
    (SimpleTreasuryDAO.vote stMinLowered 1 0 1 50).isOk = true :=
  ⟨fun s q => by simp [TreasuryDAO.updateQuorum],
   fun s v => by simp [SimpleTreasuryDAO.updateMinDeposit],
   rfl, rfl, rfl, rfl, rfl, rfl, rfl, rfl⟩
